import Mathlib

/-!
Shallow embedding of the KORA rent-reclaimer core (database, safety gate,
scanner classification, reclaim engine) and proofs about its safety policy,
idle-clock bookkeeping, budget enforcement, batching, retry and dry-run
behaviour.

Modelling conventions:
  timestamps are integer milliseconds since the epoch; JavaScript floating
  point day and SOL arithmetic is modelled with exact rationals; the sqlite
  store is a list of rows; network and chain calls are oracles passed as
  function parameters so the engine is total and executable.
-/

/-!
The rational arithmetic operations of Batteries are irreducible by default;
they are unsealed here so that concrete runs of the engine evaluate inside
decidability checks.
-/
unseal Rat.add Rat.mul Rat.inv Rat.sub

/-- Owner program id of SPL token accounts (base58 of TOKEN PROGRAM ID). -/
def tokenProgramId : String := "TokenkegQfeZyiNwAJbNbGKPFXCWuBvf9Ss623VQ5DA"

/-- Owner program id of system accounts (base58 of the system program). -/
def systemProgramId : String := "11111111111111111111111111111111"

/-- Milliseconds in a day, as used by the idle-duration computations. -/
def msPerDay : Int := 86400000

/-- Account lifecycle status stored in the sponsored accounts table. -/
inductive AcctStatus
  | active
  | closed
  | reclaimed
  | skipped
deriving DecidableEq, Repr

/-- Outcome column of a reclaim history row. -/
inductive HistStatus
  | success
  | failed
  | skipped
deriving DecidableEq, Repr

/-- A row of the sponsored accounts table (database.ts, SponsoredAccount). -/
structure SponsoredAccount where
  pubkey : String
  programOwner : Option String
  sponsorSignature : Option String
  lamports : Nat
  createdAt : Int
  lastChecked : Option Int
  status : AcctStatus
  reclaimableSince : Option Int
  closeAuthority : Option String
  operatorCanClose : Bool
deriving DecidableEq, Repr

/-- A row of the append-only reclaim history table. -/
structure ReclaimHistoryEntry where
  pubkey : String
  lamportsReclaimed : Nat
  status : HistStatus
  reason : Option String
  txSignature : Option String
deriving DecidableEq, Repr

/-- The persistent store: accounts table, history table, whitelist table. -/
structure Db where
  accounts : List SponsoredAccount
  history : List ReclaimHistoryEntry
  whitelist : List String
deriving DecidableEq, Repr

/-- database.ts getAccount: first row whose pubkey matches. -/
def Db.getAccount (db : Db) (pk : String) : Option SponsoredAccount :=
  db.accounts.find? (fun a => a.pubkey == pk)

/-- database.ts isWhitelisted (persisted whitelist table membership). -/
def Db.isWhitelisted (db : Db) (pk : String) : Bool :=
  db.whitelist.contains pk

/-- database.ts updateAccountStatus: sets status, optionally lamports, and
always refreshes lastChecked to the present scan time. -/
def Db.updateAccountStatus (db : Db) (pk : String) (st : AcctStatus)
    (lam : Option Nat) (now : Int) : Db :=
  { db with accounts := db.accounts.map (fun a =>
      if a.pubkey == pk then
        match lam with
        | some l => { a with status := st, lamports := l, lastChecked := some now }
        | none => { a with status := st, lastChecked := some now }
      else a) }

/-- database.ts updateAccountAuthority. -/
def Db.updateAccountAuthority (db : Db) (pk : String)
    (closeAuth : Option String) (canClose : Bool) : Db :=
  { db with accounts := db.accounts.map (fun a =>
      if a.pubkey == pk then
        { a with closeAuthority := closeAuth, operatorCanClose := canClose }
      else a) }

/-- database.ts markAsReclaimable: the update is guarded by
reclaimable_since IS NULL, so an already set value is kept. -/
def Db.markAsReclaimable (db : Db) (pk : String) (now : Int) : Db :=
  { db with accounts := db.accounts.map (fun a =>
      if a.pubkey == pk && a.reclaimableSince == none then
        { a with reclaimableSince := some now }
      else a) }

/-- database.ts clearReclaimableState: unconditionally nulls the field. -/
def Db.clearReclaimableState (db : Db) (pk : String) : Db :=
  { db with accounts := db.accounts.map (fun a =>
      if a.pubkey == pk then { a with reclaimableSince := none } else a) }

/-- database.ts addAccount: INSERT OR REPLACE deletes any row with the same
pubkey and inserts the incoming row with exactly the incoming values. -/
def Db.addAccount (db : Db) (acct : SponsoredAccount) : Db :=
  { db with accounts :=
      db.accounts.filter (fun a => !(a.pubkey == acct.pubkey)) ++ [acct] }

/-- database.ts addAccountsBatch: the same INSERT OR REPLACE row by row. -/
def Db.addAccountsBatch (db : Db) (accts : List SponsoredAccount) : Db :=
  accts.foldl Db.addAccount db

/-- database.ts addReclaimHistory: append-only. -/
def Db.addReclaimHistory (db : Db) (e : ReclaimHistoryEntry) : Db :=
  { db with history := db.history ++ [e] }

/-- Run-scoped safety configuration (safety.ts SafetyConfig), together with
the static configuration whitelist (config.ts). -/
structure SafetyCtx where
  minIdleDays : Nat
  maxReclaimSolPerRun : ℚ
  cfgWhitelist : List String
deriving DecidableEq, Repr

/-- safety.ts SafetyCheckResult. -/
structure SafetyCheckResult where
  allowed : Bool
  reason : Option String
deriving DecidableEq, Repr

/-- scanner.ts AccountStatus: the classification record produced by the
scanner and consumed by the safety gate and the reclaim engine. The source
field named exists is rendered existsOnChain (exists is a Lean keyword). -/
structure AccountStatus where
  pubkey : String
  existsOnChain : Bool
  lamports : Nat
  owner : Option String
  dataLength : Nat
  executable : Bool
  isTokenAccount : Bool
  isReclaimable : Bool
  skipReason : Option String := none
  closeAuthority : Option String := none
  operatorCanClose : Bool
deriving DecidableEq, Repr

/-- safety.ts isWhitelisted: persisted set union static configuration set. -/
def safetyIsWhitelisted (ctx : SafetyCtx) (db : Db) (pk : String) : Bool :=
  db.isWhitelisted pk || ctx.cfgWhitelist.contains pk

/-- safety.ts checkIdleDuration: looks the account up in the store; a pubkey
with no row passes; a row with null reclaimableSince is denied; otherwise the
days elapsed since reclaimableSince are compared against minIdleDays with a
strict less-than denial, so exactly minIdleDays elapsed is allowed. -/
def checkIdleDuration (ctx : SafetyCtx) (db : Db) (now : Int) (pk : String) :
    SafetyCheckResult :=
  match db.getAccount pk with
  | none => ⟨true, none⟩
  | some a =>
    match a.reclaimableSince with
    | none => ⟨false, some "Account not yet in idle/reclaimable state"⟩
    | some t =>
      let daysReclaimable : ℚ := ((now - t : Int) : ℚ) / ((86400000 : Int) : ℚ)
      if daysReclaimable < (ctx.minIdleDays : ℚ) then
        ⟨false, some "Account reclaimable for fewer days than the minimum"⟩
      else ⟨true, none⟩

/-- safety.ts checkReclaimLimit: converts the run counter and the candidate
amount to SOL and denies when the sum would exceed the per-run cap. -/
def checkReclaimLimit (ctx : SafetyCtx) (budgetUsed : Nat) (lamports : Nat) :
    SafetyCheckResult :=
  let solAmount : ℚ := (lamports : ℚ) / 1000000000
  let potentialTotal : ℚ := (budgetUsed : ℚ) / 1000000000 + solAmount
  if potentialTotal > ctx.maxReclaimSolPerRun then
    ⟨false, some "Would exceed max reclaim limit"⟩
  else ⟨true, none⟩

/-- safety.ts checkAccount: authority, whitelist, executable, existence,
idle duration, and budget, in that order; the first failing reason wins. -/
def checkAccount (ctx : SafetyCtx) (db : Db) (now : Int) (budgetUsed : Nat)
    (acct : AccountStatus) : SafetyCheckResult :=
  if !acct.operatorCanClose then
    ⟨false, some "Operator is not the close authority"⟩
  else if safetyIsWhitelisted ctx db acct.pubkey then
    ⟨false, some "Account is whitelisted"⟩
  else if acct.executable then
    ⟨false, some "Executable program account"⟩
  else if !acct.existsOnChain then
    ⟨false, some "Account already closed"⟩
  else
    let idleCheck := checkIdleDuration ctx db now acct.pubkey
    if !idleCheck.allowed then idleCheck
    else
      let limitCheck := checkReclaimLimit ctx budgetUsed acct.lamports
      if !limitCheck.allowed then limitCheck
      else ⟨true, none⟩

/-- safety.ts getRemainingBudget: lamports still allowed this run, floored
at zero. -/
def getRemainingBudget (ctx : SafetyCtx) (budgetUsed : Nat) : ℚ :=
  max 0 (ctx.maxReclaimSolPerRun * 1000000000 - (budgetUsed : ℚ))

/-- Replace the lastChecked column of the rows with the given pubkey,
leaving every other column alone (used to state that a computation does not
depend on lastChecked). -/
def Db.withLastChecked (db : Db) (pk : String) (lc : Option Int) : Db :=
  { db with accounts := db.accounts.map (fun a =>
      if a.pubkey == pk then { a with lastChecked := lc } else a) }

/-- scanner.ts token account layout fields used by the authority logic; a
missing value models an AccountLayout.decode failure. -/
structure TokenAccountLayout where
  owner : String
  amount : Nat
  closeAuthorityOption : Nat
  closeAuthority : String
deriving DecidableEq, Repr

/-- On-chain account info as returned by the bulk account query. -/
structure AccountInfo where
  lamports : Nat
  owner : String
  dataLength : Nat
  executable : Bool
  tokenLayout : Option TokenAccountLayout
deriving DecidableEq, Repr

/-- Scanner-side configuration: idle minimum, static whitelist, and the
operator public key when the keypair could be loaded. -/
structure ScanCtx where
  minIdleDays : Nat
  cfgWhitelist : List String
  operatorPubkey : Option String
deriving DecidableEq, Repr

/-- scanner.ts checkSafetyRules: whitelist, executable, then a recency test
on lastChecked; returns a skip reason or nothing. -/
def checkSafetyRules (ctx : ScanCtx) (db : Db) (now : Int) (pk : String)
    (info : AccountInfo) : Option String :=
  if db.isWhitelisted pk || ctx.cfgWhitelist.contains pk then
    some "Account is whitelisted"
  else if info.executable then
    some "Executable program account"
  else
    match db.getAccount pk with
    | some a =>
      match a.lastChecked with
      | some t =>
        let daysSinceCheck : ℚ := ((now - t : Int) : ℚ) / ((86400000 : Int) : ℚ)
        if daysSinceCheck < (ctx.minIdleDays : ℚ) then
          some "Account active within the idle window"
        else none
      | none => none
    | none => none

/-- scanner.ts: the close authority of a decoded token account is the
decoded close-authority field when its option flag is set, and otherwise
the token account owner field. -/
def decodedCloseAuthority (layout : TokenAccountLayout) : String :=
  if layout.closeAuthorityOption == 1 then layout.closeAuthority else layout.owner

/-- scanner.ts analyzeAccount: classifies one account from its fetched
info, performing the store bookkeeping of the matched branch (closed
accounts are marked closed; token accounts matching the operator are
marked reclaimable and their authority recorded; mismatching token
accounts have their reclaimable state cleared). -/
def analyzeAccount (ctx : ScanCtx) (db : Db) (now : Int) (pk : String)
    (info : Option AccountInfo) : AccountStatus × Db :=
  match info with
  | none =>
    (⟨pk, false, 0, none, 0, false, false, false,
      some "Account already closed", none, false⟩,
     db.updateAccountStatus pk .closed (some 0) now)
  | some i =>
    let isTok := i.owner == tokenProgramId
    let base : AccountStatus :=
      ⟨pk, true, i.lamports, some i.owner, i.dataLength, i.executable, isTok,
       false, none, none, false⟩
    match checkSafetyRules ctx db now pk i with
    | some r => ({ base with skipReason := some r }, db)
    | none =>
      if i.owner == systemProgramId then
        ({ base with skipReason := some "System account - operator cannot close" }, db)
      else if isTok then
        match i.tokenLayout with
        | none => ({ base with skipReason := some "Failed to decode token account" }, db)
        | some layout =>
          let auth := decodedCloseAuthority layout
          if ctx.operatorPubkey == some auth then
            ({ base with
                closeAuthority := some auth
                operatorCanClose := true
                isReclaimable := true },
             (db.markAsReclaimable pk now).updateAccountAuthority pk (some auth) true)
          else
            ({ base with
                closeAuthority := some auth
                operatorCanClose := false
                skipReason := some "Operator is not close authority" },
             (db.clearReclaimableState pk).updateAccountAuthority pk (some auth) false)
      else
        ({ base with skipReason := some "Program-owned account (manual review needed)" }, db)

/-- The single closing instruction built per approved account. -/
inductive Instruction
  | closeTokenAccount (account destination authority : String)
  | systemTransfer (fromPubkey toPubkey : String) (lamports : Nat)
deriving DecidableEq, Repr

/-- Result of the on-chain token account lookup done at build time. -/
inductive TokenFetch
  | found (amount : Nat)
  | notFound
  | fetchError (msg : String)
deriving DecidableEq, Repr

/-- reclaim.ts ReclaimResult (per-account outcome record). -/
structure ReclaimResult where
  pubkey : String
  success : Bool
  lamportsReclaimed : Nat
  txSignature : Option String := none
  error : Option String := none
deriving DecidableEq, Repr

/-- reclaim.ts BatchReclaimResult. -/
structure BatchReclaimResult where
  successful : List ReclaimResult
  failed : List ReclaimResult
  totalLamportsReclaimed : Nat
deriving DecidableEq, Repr

/-- logger.ts ReclaimLogEntry status values. -/
inductive LogStatus
  | reclaimed
  | skipped
  | failed
deriving DecidableEq, Repr

/-- logger.ts ReclaimLogEntry (JSON log line, not a store row). -/
structure ReclaimLogEntry where
  pubkey : String
  status : LogStatus
  lamports : Nat
  reason : Option String
  txSignature : Option String
deriving DecidableEq, Repr

/-- Outcome of a signed submission attempt sequence. -/
structure TxOutcome where
  success : Bool
  signature : Option String := none
  error : Option String := none
deriving DecidableEq, Repr

/-- reclaim.ts MAX RETRIES constant. -/
def MAX_RETRIES : Nat := 3

/-- reclaim.ts RETRY DELAY base in milliseconds. -/
def RETRY_DELAY : Nat := 1000

/-- reclaim.ts MAX INSTRUCTIONS per transaction. -/
def MAX_INSTRUCTIONS : Nat := 10

/-- Engine-wide context: safety configuration, the chain and network
oracles, the operator public key, the destination treasury, and the dry-run
flag. -/
structure EngineCtx where
  safety : SafetyCtx
  chain : String → TokenFetch
  net : Nat → Except String String
  operatorPubkey : String
  treasuryAddress : String
  dryRun : Bool

/-- Mutable run state threaded through the engine: the store, the
run-scoped budget counter of the safety manager, the position in the
network oracle, the transcript of submitted instruction lists (one entry
per signed submission attempt), and the reclaim log. -/
structure RunState where
  db : Db
  budgetUsed : Nat
  attemptIdx : Nat
  submissions : List (List Instruction)
  logs : List ReclaimLogEntry
deriving DecidableEq, Repr

/-- reclaim.ts createCloseInstruction: token accounts are re-fetched and
skipped (null) when the balance is non-zero or the account is gone, with
other fetch errors thrown; system-owned accounts get a transfer; anything
else yields null. -/
def createCloseInstruction (chain : String → TokenFetch) (acct : AccountStatus)
    (authority destination : String) : Except String (Option Instruction) :=
  if acct.isTokenAccount then
    match chain acct.pubkey with
    | .found amt =>
      if amt > 0 then .ok none
      else .ok (some (.closeTokenAccount acct.pubkey destination authority))
    | .notFound => .ok none
    | .fetchError m => .error m
  else if acct.owner == some systemProgramId then
    .ok (some (.systemTransfer acct.pubkey destination acct.lamports))
  else .ok none

/-- reclaim.ts executeWithRetry, recursion on remaining attempts: the fuel
starts at MAX RETRIES and the attempt counter at 1; each failed attempt
below the ceiling waits RETRY DELAY times 2 to the (attempt - 1) and
resubmits; the result carries the next oracle index and the delay list. -/
def executeWithRetryGo (net : Nat → Except String String) :
    Nat → Nat → Nat → List Nat → TxOutcome × Nat × List Nat
  | idx, _, 0, delays => (⟨false, none, some "Max retries exceeded"⟩, idx, delays)
  | idx, attempt, fuel + 1, delays =>
    match net idx with
    | .ok sig => (⟨true, some sig, none⟩, idx + 1, delays)
    | .error e =>
      if attempt < MAX_RETRIES then
        executeWithRetryGo net (idx + 1) (attempt + 1) fuel
          (delays ++ [RETRY_DELAY * 2 ^ (attempt - 1)])
      else (⟨false, none, some e⟩, idx + 1, delays)

/-- reclaim.ts executeWithRetry entry point. -/
def executeWithRetry (net : Nat → Except String String) (idx : Nat) :
    TxOutcome × Nat × List Nat :=
  executeWithRetryGo net idx 1 MAX_RETRIES []

/-- Intermediate result of the per-account loop at the top of
processBatch: early failure records, skip log entries, the accounts that
made it into the transaction, and their instructions (kept aligned). -/
structure BuildOut where
  fails : List ReclaimResult
  logs : List ReclaimLogEntry
  inTx : List AccountStatus
  ixs : List Instruction
deriving DecidableEq, Repr

/-- reclaim.ts processBatch, first phase: re-run the safety gate per
account (against the budget counter as of batch start), then build the
close instruction; denials and build failures become failure records, the
rest join the transaction. -/
def buildPhase (ctx : EngineCtx) (db : Db) (now : Int) (budgetUsed : Nat) :
    List AccountStatus → BuildOut
  | [] => ⟨[], [], [], []⟩
  | acct :: rest =>
    let tail := buildPhase ctx db now budgetUsed rest
    let sc := checkAccount ctx.safety db now budgetUsed acct
    if !sc.allowed then
      ⟨⟨acct.pubkey, false, 0, none, sc.reason⟩ :: tail.fails,
       ⟨acct.pubkey, .skipped, 0, sc.reason, none⟩ :: tail.logs,
       tail.inTx, tail.ixs⟩
    else
      match createCloseInstruction ctx.chain acct ctx.operatorPubkey
          ctx.treasuryAddress with
      | .ok (some ix) => ⟨tail.fails, tail.logs, acct :: tail.inTx, ix :: tail.ixs⟩
      | .ok none =>
        ⟨⟨acct.pubkey, false, 0, none, some "Could not create close instruction"⟩
            :: tail.fails, tail.logs, tail.inTx, tail.ixs⟩
      | .error e =>
        ⟨⟨acct.pubkey, false, 0, none, some e⟩ :: tail.fails,
         tail.logs, tail.inTx, tail.ixs⟩

/-- reclaim.ts processBatch: no instructions means an early return (no
empty transaction); dry run reports would-reclaim outcomes without
touching the store or the network; otherwise one retried submission of the
whole instruction list, with per-account store updates, history rows and
budget advance on success, and per-account failure records and history
rows on failure. -/
def processBatch (ctx : EngineCtx) (now : Int) (accounts : List AccountStatus)
    (st : RunState) : BatchReclaimResult × RunState :=
  let b := buildPhase ctx st.db now st.budgetUsed accounts
  if b.ixs.isEmpty then
    (⟨[], b.fails, 0⟩, { st with logs := st.logs ++ b.logs })
  else if ctx.dryRun then
    let succ := b.inTx.map (fun a =>
      (⟨a.pubkey, true, a.lamports, none, none⟩ : ReclaimResult))
    let total := (b.inTx.map (fun a => a.lamports)).sum
    let dlogs := b.inTx.map (fun a =>
      (⟨a.pubkey, .reclaimed, a.lamports, none, some "DRY_RUN"⟩ : ReclaimLogEntry))
    (⟨succ, b.fails, total⟩, { st with logs := st.logs ++ b.logs ++ dlogs })
  else
    let r := executeWithRetry ctx.net st.attemptIdx
    let subs := List.replicate (r.2.1 - st.attemptIdx) b.ixs
    if r.1.success then
      let succ := b.inTx.map (fun a =>
        (⟨a.pubkey, true, a.lamports, r.1.signature, none⟩ : ReclaimResult))
      let total := (b.inTx.map (fun a => a.lamports)).sum
      let db2 := b.inTx.foldl (fun d a =>
        (d.updateAccountStatus a.pubkey .reclaimed none now).addReclaimHistory
          ⟨a.pubkey, a.lamports, .success, none, r.1.signature⟩) st.db
      let slogs := b.inTx.map (fun a =>
        (⟨a.pubkey, .reclaimed, a.lamports, none, r.1.signature⟩ : ReclaimLogEntry))
      (⟨succ, b.fails, total⟩,
       ⟨db2, st.budgetUsed + total, r.2.1, st.submissions ++ subs,
        st.logs ++ b.logs ++ slogs⟩)
    else
      let fl := b.inTx.map (fun a =>
        (⟨a.pubkey, false, 0, none, r.1.error⟩ : ReclaimResult))
      let db2 := b.inTx.foldl (fun d a =>
        d.addReclaimHistory
          ⟨a.pubkey, 0, .failed, some ((r.1.error).getD "Transaction failed"), none⟩)
        st.db
      let flogs := b.inTx.map (fun a =>
        (⟨a.pubkey, .failed, 0, r.1.error, none⟩ : ReclaimLogEntry))
      (⟨[], b.fails ++ fl, 0⟩,
       ⟨db2, st.budgetUsed, r.2.1, st.submissions ++ subs,
        st.logs ++ b.logs ++ flogs⟩)

/-- reclaim.ts createBatches, written with an explicit fuel equal to the
list length so it computes by structural recursion. -/
def createBatchesAux : Nat → List AccountStatus → Nat → List (List AccountStatus)
  | 0, _, _ => []
  | _, [], _ => []
  | fuel + 1, l, n => l.take n :: createBatchesAux fuel (l.drop n) n

/-- reclaim.ts createBatches: consecutive chunks of at most n accounts. -/
def createBatches (accounts : List AccountStatus) (n : Nat) :
    List (List AccountStatus) :=
  createBatchesAux accounts.length accounts n

/-- reclaim.ts reclaimAccounts main loop: process the batches in order,
accumulating results, and stop after any batch that leaves no remaining
budget. -/
def runBatches (ctx : EngineCtx) (now : Int) :
    List (List AccountStatus) → RunState → BatchReclaimResult × RunState
  | [], st => (⟨[], [], 0⟩, st)
  | batch :: rest, st =>
    let pr := processBatch ctx now batch st
    if getRemainingBudget ctx.safety pr.2.budgetUsed ≤ 0 then pr
    else
      let r2 := runBatches ctx now rest pr.2
      (⟨pr.1.successful ++ r2.1.successful, pr.1.failed ++ r2.1.failed,
        pr.1.totalLamportsReclaimed + r2.1.totalLamportsReclaimed⟩, r2.2)

/-- reclaim.ts reclaimAccounts: empty input returns an empty result; a
missing treasury address throws before any processing; otherwise the
batched main loop runs. -/
def reclaimAccounts (ctx : EngineCtx) (now : Int)
    (accounts : List AccountStatus) (st : RunState) :
    Except String (BatchReclaimResult × RunState) :=
  if accounts.isEmpty then .ok (⟨[], [], 0⟩, st)
  else if ctx.treasuryAddress == "" then .error "Treasury address not configured"
  else .ok (runBatches ctx now (createBatches accounts MAX_INSTRUCTIONS) st)

/-- reclaim.ts reclaimSingle: the fabricated account status (the literal in
the source omits operatorCanClose, which is therefore undefined, hence
false at run time). -/
def syntheticSingleStatus (pk : String) : AccountStatus :=
  ⟨pk, true, 0, none, 0, false, false, true, none, none, false⟩

/-- reclaim.ts reclaimSingle: run the batch pipeline on the fabricated
status and return the first successful record, else the first failed one. -/
def reclaimSingle (ctx : EngineCtx) (now : Int) (pk : String) (st : RunState) :
    Except String (ReclaimResult × RunState) :=
  match reclaimAccounts ctx now [syntheticSingleStatus pk] st with
  | .error e => .error e
  | .ok (r, st2) =>
    match r.successful with
    | a :: _ => .ok (a, st2)
    | [] =>
      match r.failed with
      | a :: _ => .ok (a, st2)
      | [] => .ok (⟨pk, false, 0, none, some "No result"⟩, st2)

/-- Shared fixture: the empty store. -/
def engineDb0 : Db := ⟨[], [], []⟩

/-- Shared fixture: a fresh run state over the empty store. -/
def engineSt0 : RunState := ⟨engineDb0, 0, 0, [], []⟩

/-- Fixture for claim C3: a system-owned approved account carrying six SOL. -/
def c3Acct (pk : String) : AccountStatus :=
  ⟨pk, true, 6000000000, some systemProgramId, 0, false, false, true, none, none, true⟩

/-- Fixture for claims C3 and C4: a live engine with a ten SOL cap whose
network confirms every submission at once. -/
def c3Ctx : EngineCtx :=
  ⟨⟨7, 10, []⟩, fun _ => .notFound, fun _ => .ok "sig1", "OP", "TREAS", false⟩

/-- Fixture for claim C4: eleven approved system-owned accounts of one SOL
each, named a0 through a10. -/
def c4Acct (i : Nat) : AccountStatus :=
  ⟨"a" ++ toString i, true, 1000000000, some systemProgramId, 0, false, false,
   true, none, none, true⟩

/-- Fixture for claim C4: the eleven-account input list. -/
def c4Accts : List AccountStatus := (List.range 11).map c4Acct

/-- Fixture for claim C3 witness: an approved two SOL account. -/
def c3Acct2 : AccountStatus :=
  ⟨"C", true, 2000000000, some systemProgramId, 0, false, false, true, none, none, true⟩

/-- Fixture for claim C3 witness: a run that has already reclaimed nine SOL. -/
def c3St9 : RunState := ⟨engineDb0, 9000000000, 0, [], []⟩

/-- Fixture for claim C7: a network that fails the first two submission
attempts and confirms the third. -/
def c7Net : Nat → Except String String := fun i =>
  if i == 0 then .error "boom1"
  else if i == 1 then .error "boom2"
  else .ok "sig3"

/-- Fixture for claim C7: a live engine over that network. -/
def c7Ctx : EngineCtx :=
  ⟨⟨7, 10, []⟩, fun _ => .notFound, c7Net, "OP", "TREAS", false⟩

/-- Fixture for claim C8: scanner context whose operator key is OP. -/
def c8ScanCtx : ScanCtx := ⟨7, [], some "OP"⟩

/-- Fixture for claim C8: a decoded token layout whose close-authority
field is set and equals the operator. -/
def c8Layout : TokenAccountLayout := ⟨"USER", 0, 1, "OP"⟩

/-- Fixture for claim C8: token-program-owned account info that decodes to
the layout above. -/
def c8Info : AccountInfo := ⟨2039280, tokenProgramId, 165, false, some c8Layout⟩

/-- Fixture for claim C8: a store whose whitelist holds the pubkey W. -/
def c8DbW : Db := ⟨[], [], ["W"]⟩

/-- Fixture for claim C9: a dry-run engine whose network would fail if it
were ever consulted. -/
def c9Ctx : EngineCtx :=
  ⟨⟨7, 10, []⟩, fun _ => .notFound, fun _ => .error "offline", "OP", "TREAS", true⟩

/-- Fixture for claim C2: safety context with a seven day idle minimum. -/
def c2Ctx : SafetyCtx := ⟨7, 10, []⟩

/-- Fixture for claim C2: a tracked row whose idle clock started at time 0
and whose last scan was very recent. -/
def c2Row : SponsoredAccount :=
  ⟨"A", none, none, 2039280, 0, some 601199000, .active, some 0, some "OP", true⟩

/-- Fixture for claim C2: a store holding only the row above. -/
def c2Db : Db := ⟨[c2Row], [], []⟩

/-- Fixture for claim C5: a row whose idle clock is already set. -/
def c5Row : SponsoredAccount :=
  ⟨"B", none, none, 2039280, 0, some 100, .active, some 5, some "OP", true⟩

/-- Fixture for claim C5: a store holding only the row above. -/
def c5Db : Db := ⟨[c5Row], [], []⟩

/-- Fixture for claim C6: a tracked row with a non-null idle clock and
operator authority, as left behind by a scan. -/
def c6RowOld : SponsoredAccount :=
  ⟨"P", none, none, 2039280, 0, some 100, .active, some 5, some "OP", true⟩

/-- Fixture for claim C6: the row a re-import upserts for the same pubkey
(the importers always pass a null idle clock and no authority). -/
def c6RowNew : SponsoredAccount :=
  ⟨"P", none, none, 0, 200, none, .active, none, none, false⟩

/-- Shared helper: find? by pubkey commutes with a map that preserves every
pubkey. -/
theorem find?_map_pubkey_invariant (l : List SponsoredAccount) (qk : String)
    (g : SponsoredAccount → SponsoredAccount)
    (hg : ∀ x, (g x).pubkey = x.pubkey) :
    (l.map g).find? (fun a => a.pubkey == qk)
      = (l.find? (fun a => a.pubkey == qk)).map g := by
  induction l with
  | nil => simp
  | cons x xs ih =>
    by_cases h : x.pubkey == qk
    · simp [List.find?, hg, h]
    · simp only [List.map_cons, List.find?]
      rw [hg x]
      simp only [h]
      exact ih

/-- Claim C1: whenever the classified account status carries
operatorCanClose = false, the safety gate denies it with the authority
reason, whatever the store contents (whitelist state), the current time
(idle state) and the run budget counter are: the authority condition is
evaluated before every other condition and cannot be bypassed. -/
theorem C1_operatorCanClose_hard_deny (ctx : SafetyCtx) (db : Db) (now : Int)
    (budgetUsed : Nat) (acct : AccountStatus)
    (h : acct.operatorCanClose = false) :
    (checkAccount ctx db now budgetUsed acct).allowed = false ∧
    (checkAccount ctx db now budgetUsed acct).reason
      = some "Operator is not the close authority" := by
  simp [checkAccount, h]

/-- Witness for C1: a concrete non-closable account, listed in no whitelist,
existing, idle for long, tiny, is still denied with the authority reason. -/
theorem C1_witness :
    ((⟨"acc1", true, 5, none, 0, false, true, false, none, none, false⟩ :
        AccountStatus).operatorCanClose = false) ∧
    (checkAccount ⟨7, 10, []⟩ ⟨[], [], []⟩ 604800000 0
        ⟨"acc1", true, 5, none, 0, false, true, false, none, none, false⟩).allowed
      = false := by
  refine ⟨rfl, ?_⟩
  exact (C1_operatorCanClose_hard_deny ⟨7, 10, []⟩ ⟨[], [], []⟩ 604800000 0
    ⟨"acc1", true, 5, none, 0, false, true, false, none, none, false⟩ rfl).1

/-- Shared helper: the row found for pk satisfies the search predicate. -/
theorem getAccount_pubkey_eq (db : Db) (pk : String) (a : SponsoredAccount)
    (ha : db.getAccount pk = some a) : (a.pubkey == pk) = true := by
  have hfind : db.accounts.find? (fun x => x.pubkey == pk) = some a := ha
  have h2 := List.find?_some hfind
  simpa using h2

/-- Claim C2: the idle check of the safety gate is driven purely by
reclaimableSince: a tracked row with a null reclaimableSince is denied; a
row with reclaimableSince = t is allowed exactly when at least minIdleDays
days have elapsed since t (inclusive boundary), and the result is invariant
under arbitrary changes of the lastChecked column. -/
theorem C2_idle_gate_reclaimableSince (ctx : SafetyCtx) (db : Db) (now : Int)
    (pk : String) (a : SponsoredAccount) (ha : db.getAccount pk = some a) :
    (a.reclaimableSince = none →
       (checkIdleDuration ctx db now pk).allowed = false) ∧
    (∀ t : Int, a.reclaimableSince = some t →
       ((checkIdleDuration ctx db now pk).allowed = true ↔
         (ctx.minIdleDays : ℚ) ≤ ((now - t : Int) : ℚ) / ((86400000 : Int) : ℚ))) ∧
    (∀ lc : Option Int,
       checkIdleDuration ctx (db.withLastChecked pk lc) now pk
         = checkIdleDuration ctx db now pk) := by
  have hpk : (a.pubkey == pk) = true := getAccount_pubkey_eq db pk a ha
  refine ⟨?_, ?_, ?_⟩
  · intro h
    simp [checkIdleDuration, ha, h]
  · intro t ht
    simp only [checkIdleDuration, ha, ht]
    by_cases hlt : ((now - t : Int) : ℚ) / ((86400000 : Int) : ℚ) < (ctx.minIdleDays : ℚ)
    · rw [if_pos hlt]
      exact ⟨fun h => (Bool.false_ne_true h).elim, fun h => absurd hlt (not_lt_of_le h)⟩
    · rw [if_neg hlt]
      exact ⟨fun _ => le_of_not_lt hlt, fun _ => rfl⟩
  · intro lc
    have hg : ∀ x : SponsoredAccount,
        ((fun y => if y.pubkey == pk then { y with lastChecked := lc } else y) x).pubkey
          = x.pubkey := by
      intro x
      by_cases h : (x.pubkey == pk) = true <;> simp [h]
    have hfind : db.accounts.find? (fun x => x.pubkey == pk) = some a := ha
    have hpkeq : a.pubkey = pk := by simpa using hpk
    have hga : (db.withLastChecked pk lc).getAccount pk
        = some { a with lastChecked := lc } := by
      simp only [Db.getAccount, Db.withLastChecked]
      rw [find?_map_pubkey_invariant _ _ _ hg, hfind]
      simp [hpkeq]
    cases hrs : a.reclaimableSince <;> simp [checkIdleDuration, hga, ha, hrs]

/-- Witness for C2: with minIdleDays = 7, an account whose idle clock
started at time 0 is denied at now = 6 days 23 hours (in ms) and allowed at
now = exactly 7 days, despite a lastChecked only moments old. -/
theorem C2_witness :
    (checkIdleDuration c2Ctx c2Db 601200000 "A").allowed = false ∧
    (checkIdleDuration c2Ctx c2Db 604800000 "A").allowed = true := by
  have hA : c2Db.getAccount "A" = some c2Row := by decide
  constructor
  · have h := (C2_idle_gate_reclaimableSince c2Ctx c2Db 601200000 "A" c2Row hA).2.1 0 rfl
    have hnot : ¬ ((c2Ctx.minIdleDays : ℚ)
        ≤ ((601200000 - 0 : Int) : ℚ) / ((86400000 : Int) : ℚ)) := by
      norm_num [c2Ctx]
    by_cases hb : (checkIdleDuration c2Ctx c2Db 601200000 "A").allowed = true
    · exact absurd (h.mp hb) hnot
    · simpa using hb
  · have h := (C2_idle_gate_reclaimableSince c2Ctx c2Db 604800000 "A" c2Row hA).2.1 0 rfl
    refine h.mpr ?_
    norm_num [c2Ctx]

/-- Claim C5: markAsReclaimable writes the current time only into a row
whose reclaimableSince is currently null (first write wins, a non-null
value is never changed), and clearReclaimableState unconditionally nulls
the field. -/
theorem C5_reclaimableSince_set_once (db : Db) (pk : String) (now : Int)
    (a : SponsoredAccount) (ha : db.getAccount pk = some a) :
    (∀ t : Int, a.reclaimableSince = some t →
       (db.markAsReclaimable pk now).getAccount pk = some a) ∧
    (a.reclaimableSince = none →
       (db.markAsReclaimable pk now).getAccount pk
         = some { a with reclaimableSince := some now }) ∧
    (db.clearReclaimableState pk).getAccount pk
       = some { a with reclaimableSince := none } := by
  have hpk : (a.pubkey == pk) = true := getAccount_pubkey_eq db pk a ha
  have hpkeq : a.pubkey = pk := by simpa using hpk
  have hfind : db.accounts.find? (fun x => x.pubkey == pk) = some a := ha
  have hgmark : ∀ x : SponsoredAccount,
      ((fun y => if y.pubkey == pk && y.reclaimableSince == none then
          { y with reclaimableSince := some now } else y) x).pubkey = x.pubkey := by
    intro x
    by_cases h : (x.pubkey == pk && x.reclaimableSince == none) = true <;> simp [h]
  have hgclear : ∀ x : SponsoredAccount,
      ((fun y => if y.pubkey == pk then
          { y with reclaimableSince := none } else y) x).pubkey = x.pubkey := by
    intro x
    by_cases h : (x.pubkey == pk) = true <;> simp [h]
  have hmark : (db.markAsReclaimable pk now).getAccount pk
      = some (if a.pubkey == pk && a.reclaimableSince == none then
          { a with reclaimableSince := some now } else a) := by
    simp only [Db.getAccount, Db.markAsReclaimable]
    rw [find?_map_pubkey_invariant _ _ _ hgmark, hfind]
    rfl
  have hclear : (db.clearReclaimableState pk).getAccount pk
      = some { a with reclaimableSince := none } := by
    simp only [Db.getAccount, Db.clearReclaimableState]
    rw [find?_map_pubkey_invariant _ _ _ hgclear, hfind]
    simp [hpkeq]
  refine ⟨?_, ?_, hclear⟩
  · intro t ht
    rw [hmark]
    simp [hpkeq, ht]
  · intro h
    rw [hmark]
    simp [hpkeq, h]

/-- Witness for C5: a concrete row with reclaimableSince = some 5 keeps
that value across markAsReclaimable and loses it on clearReclaimableState. -/
theorem C5_witness :
    (c5Db.markAsReclaimable "B" 999).getAccount "B" = some c5Row ∧
    ((c5Db.clearReclaimableState "B").getAccount "B").map
        (fun r => r.reclaimableSince) = some none := by
  have h := C5_reclaimableSince_set_once c5Db "B" 999 c5Row (by decide)
  refine ⟨h.1 5 rfl, ?_⟩
  rw [h.2.2]
  rfl

/-- Counterexample for C6: an already-tracked key whose stored row has a
non-null reclaimableSince (and operatorCanClose = true) is upserted again
with the values every importer passes (null reclaimableSince); the stored
reclaimableSince afterwards is null, so the existing non-null value was
overwritten, contradicting the claimed preservation exception. -/
theorem C6_upsert_counterexample :
    ((Db.mk [c6RowOld] [] []).getAccount "P").map (fun r => r.reclaimableSince)
        = some (some 5) ∧
    c6RowOld.operatorCanClose = true ∧
    (((Db.mk [c6RowOld] [] []).addAccount c6RowNew).getAccount "P").map
        (fun r => r.reclaimableSince) = some none := by
  decide


/-- Shared helper: the account and instruction lists built by the first
phase of processBatch stay aligned. -/
theorem buildPhase_inTx_length (ctx : EngineCtx) (db : Db) (now : Int)
    (used : Nat) (accounts : List AccountStatus) :
    (buildPhase ctx db now used accounts).inTx.length
      = (buildPhase ctx db now used accounts).ixs.length := by
  induction accounts with
  | nil => rfl
  | cons x rest ih =>
    simp only [buildPhase]
    cases hb : (checkAccount ctx.safety db now used x).allowed
    · simpa using ih
    · cases hcc : createCloseInstruction ctx.chain x ctx.operatorPubkey
          ctx.treasuryAddress with
      | error e => simpa using ih
      | ok o => cases o <;> simpa using ih

/-- Shared helper: a batch account denied by the safety gate yields a
failure record and a skipped log entry in the build phase. -/
theorem buildPhase_denied_mem (ctx : EngineCtx) (db : Db) (now : Int)
    (used : Nat) (accounts : List AccountStatus) (acct : AccountStatus)
    (r : Option String) (hmem : acct ∈ accounts)
    (hden : checkAccount ctx.safety db now used acct = ⟨false, r⟩) :
    (⟨acct.pubkey, false, 0, none, r⟩ : ReclaimResult)
        ∈ (buildPhase ctx db now used accounts).fails ∧
    (⟨acct.pubkey, .skipped, 0, r, none⟩ : ReclaimLogEntry)
        ∈ (buildPhase ctx db now used accounts).logs := by
  induction accounts with
  | nil => cases hmem
  | cons x rest ih =>
    rcases List.mem_cons.mp hmem with hx | hx
    · subst hx
      simp [buildPhase, hden]
    · have htail := ih hx
      simp only [buildPhase]
      cases hb : (checkAccount ctx.safety db now used x).allowed
      · simp [hb, htail.1, htail.2]
      · cases hcc : createCloseInstruction ctx.chain x ctx.operatorPubkey
            ctx.treasuryAddress with
        | error e => simp [hb, hcc, htail.1, htail.2]
        | ok o => cases o <;> simp [hb, hcc, htail.1, htail.2]

/-- Shared helper: the build phase distributes every batch account into
either the early-failure list or the transaction list, with multiplicity. -/
theorem buildPhase_perm (ctx : EngineCtx) (db : Db) (now : Int) (used : Nat)
    (accounts : List AccountStatus) :
    List.Perm
      ((buildPhase ctx db now used accounts).fails.map (fun r => r.pubkey)
        ++ (buildPhase ctx db now used accounts).inTx.map (fun a => a.pubkey))
      (accounts.map (fun a => a.pubkey)) := by
  induction accounts with
  | nil => simp [buildPhase]
  | cons x rest ih =>
    simp only [buildPhase, List.map_cons]
    cases hb : (checkAccount ctx.safety db now used x).allowed
    · simpa using ih.cons x.pubkey
    · cases hcc : createCloseInstruction ctx.chain x ctx.operatorPubkey
          ctx.treasuryAddress with
      | error e => simpa using ih.cons x.pubkey
      | ok o =>
        cases o with
        | none => simpa using ih.cons x.pubkey
        | some ix =>
          simp only [hb, hcc, Bool.not_true, Bool.false_eq_true, if_false,
            List.map_cons]
          exact List.perm_middle.trans (ih.cons x.pubkey)

/-- Shared helper: every account of a processed batch contributes exactly
one outcome record (successful or failed), with multiplicity. -/
theorem processBatch_records_perm (ctx : EngineCtx) (now : Int)
    (accounts : List AccountStatus) (st : RunState) :
    List.Perm
      (((processBatch ctx now accounts st).1.successful
        ++ (processBatch ctx now accounts st).1.failed).map (fun r => r.pubkey))
      (accounts.map (fun a => a.pubkey)) := by
  have hperm := buildPhase_perm ctx st.db now st.budgetUsed accounts
  have hlen := buildPhase_inTx_length ctx st.db now st.budgetUsed accounts
  simp only [processBatch]
  by_cases hemp : (buildPhase ctx st.db now st.budgetUsed accounts).ixs.isEmpty
  · have hixs : (buildPhase ctx st.db now st.budgetUsed accounts).ixs = [] :=
      List.isEmpty_iff.mp hemp
    have hintx : (buildPhase ctx st.db now st.budgetUsed accounts).inTx = [] := by
      rw [hixs] at hlen
      exact List.eq_nil_of_length_eq_zero hlen
    rw [hintx] at hperm
    simp only [hemp, if_true]
    simpa using hperm
  · simp only [hemp, Bool.false_eq_true, if_false]
    by_cases hdry : ctx.dryRun
    · simp only [hdry, if_true]
      refine List.Perm.trans ?_ ((List.perm_append_comm).trans hperm)
      simp only [List.map_append, List.map_map]
      exact List.Perm.refl _
    · simp only [hdry, Bool.false_eq_true, if_false]
      by_cases hs : (executeWithRetry ctx.net st.attemptIdx).1.success
      · simp only [hs, if_true]
        refine List.Perm.trans ?_ ((List.perm_append_comm).trans hperm)
        simp only [List.map_append, List.map_map]
        exact List.Perm.refl _
      · simp only [hs, Bool.false_eq_true, if_false]
        refine List.Perm.trans ?_ hperm
        simp only [List.nil_append, List.map_append, List.map_map]
        exact List.Perm.refl _

/-- Shared helper: chunking and re-joining is the identity. -/
theorem createBatchesAux_flatten (fuel : Nat) :
    ∀ (l : List AccountStatus) (n : Nat), 1 ≤ n → l.length ≤ fuel →
      (createBatchesAux fuel l n).flatten = l := by
  induction fuel with
  | zero =>
    intro l n _ hlen
    have : l = [] := List.eq_nil_of_length_eq_zero (Nat.le_zero.mp hlen)
    subst this
    rfl
  | succ fuel ih =>
    intro l n hn hlen
    cases l with
    | nil => rfl
    | cons x xs =>
      simp only [createBatchesAux, List.flatten_cons]
      rw [ih ((x :: xs).drop n) n hn]
      · exact List.take_append_drop n (x :: xs)
      · simp only [List.length_cons] at hlen
        simp only [List.length_drop, List.length_cons]
        omega

/-- Shared helper: interchange permutation for two appended result pairs. -/
theorem append_interchange_perm (a b c d : List String) :
    List.Perm ((a ++ b) ++ (c ++ d)) ((a ++ c) ++ (b ++ d)) := by
  have h1 : ((a ++ b) ++ (c ++ d)) = a ++ (b ++ (c ++ d)) := by
    simp [List.append_assoc]
  have h2 : ((a ++ c) ++ (b ++ d)) = a ++ (c ++ (b ++ d)) := by
    simp [List.append_assoc]
  rw [h1, h2]
  refine List.Perm.append_left a ?_
  have h3 : b ++ (c ++ d) = (b ++ c) ++ d := by
    simp [List.append_assoc]
  have h4 : c ++ (b ++ d) = (c ++ b) ++ d := by
    simp [List.append_assoc]
  rw [h3, h4]
  exact List.Perm.append_right d List.perm_append_comm

/-- Shared helper: the records of the main loop cover exactly the batches
processed before the budget stop. -/
theorem runBatches_record_front (ctx : EngineCtx) (now : Int)
    (batches : List (List AccountStatus)) :
    ∀ st : RunState, ∃ k, k ≤ batches.length ∧
      List.Perm
        (((runBatches ctx now batches st).1.successful
          ++ (runBatches ctx now batches st).1.failed).map (fun r => r.pubkey))
        (((batches.take k).flatten).map (fun a => a.pubkey)) := by
  induction batches with
  | nil =>
    intro st
    exact ⟨0, Nat.le_refl 0, by simp [runBatches]⟩
  | cons b rest ih =>
    intro st
    simp only [runBatches]
    by_cases hstop : getRemainingBudget ctx.safety
        (processBatch ctx now b st).2.budgetUsed ≤ 0
    · refine ⟨1, Nat.succ_le_succ (Nat.zero_le _), ?_⟩
      simp only [hstop, if_true]
      simpa using processBatch_records_perm ctx now b st
    · obtain ⟨k, hk, hperm⟩ := ih (processBatch ctx now b st).2
      simp only [List.map_append] at hperm
      refine ⟨k + 1, Nat.succ_le_succ hk, ?_⟩
      simp only [hstop, if_false]
      have hhead := processBatch_records_perm ctx now b st
      simp only [List.map_append] at hhead
      have step1 : List.Perm
          ((((processBatch ctx now b st).1.successful
              ++ (runBatches ctx now rest (processBatch ctx now b st).2).1.successful)
            ++ ((processBatch ctx now b st).1.failed
              ++ (runBatches ctx now rest (processBatch ctx now b st).2).1.failed)).map
                (fun r => r.pubkey))
          ((((processBatch ctx now b st).1.successful
              ++ (processBatch ctx now b st).1.failed)
            ++ ((runBatches ctx now rest (processBatch ctx now b st).2).1.successful
              ++ (runBatches ctx now rest (processBatch ctx now b st).2).1.failed)).map
                (fun r => r.pubkey)) := by
        simp only [List.map_append]
        exact append_interchange_perm _ _ _ _
      have step2 : List.Perm
          ((((processBatch ctx now b st).1.successful
              ++ (processBatch ctx now b st).1.failed)
            ++ ((runBatches ctx now rest (processBatch ctx now b st).2).1.successful
              ++ (runBatches ctx now rest (processBatch ctx now b st).2).1.failed)).map
                (fun r => r.pubkey))
          ((b.map (fun a => a.pubkey))
            ++ (((rest.take k).flatten).map (fun a => a.pubkey))) := by
        simp only [List.map_append]
        exact List.Perm.append hhead hperm
      have step3 : (b.map (fun a => a.pubkey))
            ++ (((rest.take k).flatten).map (fun a => a.pubkey))
          = (((b :: rest).take (k + 1)).flatten).map (fun a => a.pubkey) := by
        simp [List.take_succ_cons, List.flatten_cons]
      exact (step1.trans step2).trans (step3 ▸ List.Perm.refl _)

/-- Counterexample for C3: with the ten SOL cap, two approved six SOL
accounts inside one transaction batch are both checked against the
batch-start counter, so both are reclaimed: the run reclaims twelve SOL,
strictly above the cap, instead of only the one-account prefix whose
running sum stays at or under the cap, and nothing is reported skipped. -/
theorem C3_budget_counterexample :
    ((reclaimAccounts c3Ctx 0 [c3Acct "A", c3Acct "B"] engineSt0).toOption.map
        (fun p => (p.1.successful.map (fun r => r.pubkey), p.1.failed,
          p.1.totalLamportsReclaimed)))
      = some (["A", "B"], [], 12000000000) ∧
    c3Ctx.safety.maxReclaimSolPerRun * 1000000000 < (12000000000 : ℚ) := by
  exact ⟨by decide, by decide⟩

/-- Claim C3 as amended: the budget admission test passes an account
exactly when the run counter at batch start plus the account lamports is
at most the cap (in lamports, inclusive); a budget-denied account is
returned in the failed list of the batch result while its reclaim log
entry is written with status skipped; and the counter never advances on a
dry run nor on a failed submission (it advances only on confirmed
success). Because all accounts of one batch are checked against the same
batch-start counter, a cap crossing inside a batch is not caught (see the
counterexample); crossing at a batch boundary stops the remaining
batches. -/
theorem C3_budget_amended (ctx : EngineCtx) (now : Int)
    (accounts : List AccountStatus) (st : RunState) :
    (∀ used lam : Nat, (checkReclaimLimit ctx.safety used lam).allowed = true ↔
        ((used : ℚ) + (lam : ℚ) ≤ ctx.safety.maxReclaimSolPerRun * 1000000000)) ∧
    (∀ acct ∈ accounts,
       checkAccount ctx.safety st.db now st.budgetUsed acct
           = ⟨false, some "Would exceed max reclaim limit"⟩ →
       ((⟨acct.pubkey, false, 0, none, some "Would exceed max reclaim limit"⟩ :
           ReclaimResult) ∈ (processBatch ctx now accounts st).1.failed ∧
        (⟨acct.pubkey, .skipped, 0, some "Would exceed max reclaim limit", none⟩ :
           ReclaimLogEntry) ∈ (processBatch ctx now accounts st).2.logs)) ∧
    (ctx.dryRun = true →
       (processBatch ctx now accounts st).2.budgetUsed = st.budgetUsed) ∧
    ((executeWithRetry ctx.net st.attemptIdx).1.success = false →
       (processBatch ctx now accounts st).2.budgetUsed = st.budgetUsed) := by
  refine ⟨?_, ?_, ?_, ?_⟩
  · intro used lam
    have hc : (0 : ℚ) < 1000000000 := by norm_num
    by_cases h : ctx.safety.maxReclaimSolPerRun * 1000000000 < (used : ℚ) + (lam : ℚ)
    · have hcond : (used : ℚ) / 1000000000 + (lam : ℚ) / 1000000000
          > ctx.safety.maxReclaimSolPerRun := by
        rw [div_add_div_same, gt_iff_lt, lt_div_iff₀ hc]
        exact h
      simp only [checkReclaimLimit]
      rw [if_pos hcond]
      exact ⟨fun hh => (Bool.false_ne_true hh).elim,
        fun hh => absurd h (not_lt_of_le hh)⟩
    · have hcond : ¬ ((used : ℚ) / 1000000000 + (lam : ℚ) / 1000000000
          > ctx.safety.maxReclaimSolPerRun) := by
        rw [gt_iff_lt, div_add_div_same, lt_div_iff₀ hc]
        exact h
      simp only [checkReclaimLimit]
      rw [if_neg hcond]
      exact ⟨fun _ => le_of_not_lt h, fun _ => rfl⟩
  · intro acct hmem hden
    have hb := buildPhase_denied_mem ctx st.db now st.budgetUsed accounts acct
      (some "Would exceed max reclaim limit") hmem hden
    constructor
    · simp only [processBatch]
      by_cases hemp : (buildPhase ctx st.db now st.budgetUsed accounts).ixs.isEmpty
      · simp only [hemp, if_true]
        exact hb.1
      · simp only [hemp, Bool.false_eq_true, if_false]
        by_cases hdry : ctx.dryRun
        · simp only [hdry, if_true]
          exact hb.1
        · simp only [hdry, Bool.false_eq_true, if_false]
          by_cases hs : (executeWithRetry ctx.net st.attemptIdx).1.success
          · simp only [hs, if_true]
            exact hb.1
          · simp only [hs, Bool.false_eq_true, if_false]
            exact List.mem_append_left _ hb.1
    · simp only [processBatch]
      by_cases hemp : (buildPhase ctx st.db now st.budgetUsed accounts).ixs.isEmpty
      · simp only [hemp, if_true]
        simp [List.mem_append, hb.2]
      · simp only [hemp, Bool.false_eq_true, if_false]
        by_cases hdry : ctx.dryRun
        · simp only [hdry, if_true]
          simp [List.mem_append, hb.2]
        · simp only [hdry, Bool.false_eq_true, if_false]
          by_cases hs : (executeWithRetry ctx.net st.attemptIdx).1.success
          · simp only [hs, if_true]
            simp [List.mem_append, hb.2]
          · simp only [hs, Bool.false_eq_true, if_false]
            simp [List.mem_append, hb.2]
  · intro hdry
    simp only [processBatch]
    by_cases hemp : (buildPhase ctx st.db now st.budgetUsed accounts).ixs.isEmpty
    · simp [hemp]
    · simp [hemp, hdry]
  · intro hfail
    simp only [processBatch]
    by_cases hemp : (buildPhase ctx st.db now st.budgetUsed accounts).ixs.isEmpty
    · simp [hemp]
    · by_cases hdry : ctx.dryRun
      · simp [hemp, hdry]
      · simp [hemp, hdry, hfail]

/-- Witness for C3 (amended): a run that already reclaimed nine SOL denies
a further two SOL account; the account lands in the failed list with the
budget reason while the log entry says skipped. -/
theorem C3_witness :
    ((⟨"C", false, 0, none, some "Would exceed max reclaim limit"⟩ : ReclaimResult)
        ∈ (processBatch c3Ctx 0 [c3Acct2] c3St9).1.failed) ∧
    ((⟨"C", .skipped, 0, some "Would exceed max reclaim limit", none⟩ : ReclaimLogEntry)
        ∈ (processBatch c3Ctx 0 [c3Acct2] c3St9).2.logs) :=
  (C3_budget_amended c3Ctx 0 [c3Acct2] c3St9).2.1 c3Acct2
    (List.mem_cons_self _ _) (by decide)

/-- Counterexample for C4: eleven one-SOL approved accounts under the ten
SOL cap: the first batch of ten exhausts the budget, the run stops, and
account a10 never receives any outcome record (ten records for eleven
inputs), contradicting the claim that every input account gets exactly one
record even when the run stops early on the cap. -/
theorem C4_outcome_counterexample :
    c4Accts.length = 11 ∧
    ((reclaimAccounts c3Ctx 0 c4Accts engineSt0).toOption.map
        (fun p => (p.1.successful.length, p.1.failed.length,
          ((p.1.successful ++ p.1.failed).map (fun r => r.pubkey)).contains "a10")))
      = some (10, 0, false) ∧
    (c4Accts.map (fun a => a.pubkey)).contains "a10" = true := by
  exact ⟨by decide, by decide, by decide⟩

/-- Claim C4 as amended: every account of a batch that is actually
processed appears in exactly one outcome record of that batch result
(counted with multiplicity); the records of a whole run cover exactly the
accounts of a front segment of the batch list (batches after an early
budget stop contribute no records); and the batches partition the input
list in order. -/
theorem C4_outcome_amended (ctx : EngineCtx) (now : Int)
    (accounts : List AccountStatus) (st : RunState) :
    (∀ (batch : List AccountStatus) (st1 : RunState),
       List.Perm
         (((processBatch ctx now batch st1).1.successful
            ++ (processBatch ctx now batch st1).1.failed).map (fun r => r.pubkey))
         (batch.map (fun a => a.pubkey))) ∧
    (∃ k, k ≤ (createBatches accounts MAX_INSTRUCTIONS).length ∧
       List.Perm
         (((runBatches ctx now (createBatches accounts MAX_INSTRUCTIONS) st).1.successful
            ++ (runBatches ctx now (createBatches accounts MAX_INSTRUCTIONS) st).1.failed).map
              (fun r => r.pubkey))
         ((((createBatches accounts MAX_INSTRUCTIONS).take k).flatten).map
            (fun a => a.pubkey))) ∧
    ((createBatches accounts MAX_INSTRUCTIONS).flatten = accounts) := by
  refine ⟨fun batch st1 => processBatch_records_perm ctx now batch st1,
    runBatches_record_front ctx now _ st, ?_⟩
  exact createBatchesAux_flatten accounts.length accounts MAX_INSTRUCTIONS
    (by decide) (Nat.le_refl _)

/-- Claim C6 as amended: the upsert is idempotent on the public key and
last-write-wins for every mutable field including reclaimableSince: the
stored row after an upsert carries exactly the incoming values (an
existing non-null reclaimableSince is not preserved), both for addAccount
and for a batch upsert of the row. -/
theorem C6_upsert_amended (db : Db) (acct : SponsoredAccount) :
    ((db.addAccount acct).getAccount acct.pubkey = some acct) ∧
    ((db.addAccount acct).addAccount acct = db.addAccount acct) ∧
    (db.addAccountsBatch [acct] = db.addAccount acct) := by
  refine ⟨?_, ?_, rfl⟩
  · simp only [Db.addAccount, Db.getAccount]
    rw [List.find?_append]
    have hnone : (db.accounts.filter (fun a => !(a.pubkey == acct.pubkey))).find?
        (fun a => a.pubkey == acct.pubkey) = none := by
      rw [List.find?_eq_none]
      intro x hx
      have hqx := (List.mem_filter.mp hx).2
      simp at hqx ⊢
      exact hqx
    rw [hnone]
    simp [List.find?]
  · simp only [Db.addAccount]
    congr 1
    rw [List.filter_append, List.filter_filter]
    have h1 : (List.filter (fun a => !(a.pubkey == acct.pubkey)) [acct]) = [] := by
      simp
    rw [h1, List.append_nil]
    exact congrArg (fun l => l ++ [acct])
      (List.filter_congr (fun a _ => Bool.and_self _))

/-- Claim C7: submission failure retries the whole batch (each submission
attempt carries the full instruction list) up to three attempts with
doubling delays of 1000 ms then 2000 ms; failing attempts one and two and
succeeding on the third yields a confirmed result with the third attempt
signature, and the successful list then consists of exactly one success
record per account of the transaction batch, each carrying that
signature; exhausting all three attempts records the last error on every
account of the batch with nothing recorded as success. -/
theorem C7_batch_retry (ctx : EngineCtx) (now : Int)
    (accounts : List AccountStatus) (st : RunState) (e1 e2 : String)
    (hdry : ctx.dryRun = false)
    (h1 : ctx.net st.attemptIdx = .error e1)
    (h2 : ctx.net (st.attemptIdx + 1) = .error e2) :
    (∀ sig : String, ctx.net (st.attemptIdx + 2) = .ok sig →
       (executeWithRetry ctx.net st.attemptIdx
           = (⟨true, some sig, none⟩, st.attemptIdx + 3, [1000, 2000]) ∧
        (processBatch ctx now accounts st).1.successful
           = (buildPhase ctx st.db now st.budgetUsed accounts).inTx.map
               (fun a => ⟨a.pubkey, true, a.lamports, some sig, none⟩) ∧
        ∀ a ∈ (buildPhase ctx st.db now st.budgetUsed accounts).inTx,
          (⟨a.pubkey, true, a.lamports, some sig, none⟩ : ReclaimResult)
            ∈ (processBatch ctx now accounts st).1.successful)) ∧
    (∀ e3 : String, ctx.net (st.attemptIdx + 2) = .error e3 →
       (executeWithRetry ctx.net st.attemptIdx
           = (⟨false, none, some e3⟩, st.attemptIdx + 3, [1000, 2000]) ∧
        (processBatch ctx now accounts st).1.successful = [] ∧
        ∀ a ∈ (buildPhase ctx st.db now st.budgetUsed accounts).inTx,
          (⟨a.pubkey, false, 0, none, some e3⟩ : ReclaimResult)
            ∈ (processBatch ctx now accounts st).1.failed)) ∧
    (∀ ixl ∈ (processBatch ctx now accounts st).2.submissions.drop
        st.submissions.length,
       ixl = (buildPhase ctx st.db now st.budgetUsed accounts).ixs) := by
  refine ⟨?_, ?_, ?_⟩
  · intro sig hok
    have hex : executeWithRetry ctx.net st.attemptIdx
        = (⟨true, some sig, none⟩, st.attemptIdx + 3, [1000, 2000]) := by
      simp only [executeWithRetry, MAX_RETRIES, executeWithRetryGo, h1, h2, hok]
      norm_num [RETRY_DELAY]
    have heq : (processBatch ctx now accounts st).1.successful
        = (buildPhase ctx st.db now st.budgetUsed accounts).inTx.map
            (fun a => ⟨a.pubkey, true, a.lamports, some sig, none⟩) := by
      by_cases hemp : (buildPhase ctx st.db now st.budgetUsed accounts).ixs.isEmpty
      · have hintx : (buildPhase ctx st.db now st.budgetUsed accounts).inTx = [] := by
          have hlen := buildPhase_inTx_length ctx st.db now st.budgetUsed accounts
          rw [List.isEmpty_iff.mp hemp] at hlen
          exact List.eq_nil_of_length_eq_zero hlen
        simp [processBatch, hemp, hintx]
      · simp [processBatch, hemp, hdry, hex]
    refine ⟨hex, heq, ?_⟩
    intro a ha
    rw [heq]
    exact List.mem_map_of_mem _ ha
  · intro e3 h3
    have hex : executeWithRetry ctx.net st.attemptIdx
        = (⟨false, none, some e3⟩, st.attemptIdx + 3, [1000, 2000]) := by
      simp only [executeWithRetry, MAX_RETRIES, executeWithRetryGo, h1, h2, h3]
      norm_num [RETRY_DELAY]
    refine ⟨hex, ?_, ?_⟩
    · by_cases hemp : (buildPhase ctx st.db now st.budgetUsed accounts).ixs.isEmpty
      · simp [processBatch, hemp]
      · simp [processBatch, hemp, hdry, hex]
    · intro a ha
      by_cases hemp : (buildPhase ctx st.db now st.budgetUsed accounts).ixs.isEmpty
      · have hintx : (buildPhase ctx st.db now st.budgetUsed accounts).inTx = [] := by
          have hlen := buildPhase_inTx_length ctx st.db now st.budgetUsed accounts
          rw [List.isEmpty_iff.mp hemp] at hlen
          exact List.eq_nil_of_length_eq_zero hlen
        rw [hintx] at ha
        cases ha
      · simp only [processBatch, hemp, Bool.false_eq_true, if_false, hdry, hex]
        refine List.mem_append_right _ ?_
        exact List.mem_map_of_mem _ ha
  · intro ixl hixl
    by_cases hemp : (buildPhase ctx st.db now st.budgetUsed accounts).ixs.isEmpty
    · simp only [processBatch, hemp, if_true] at hixl
      simp [List.drop_length] at hixl
    · by_cases hs : (executeWithRetry ctx.net st.attemptIdx).1.success
      · simp only [processBatch, hemp, Bool.false_eq_true, if_false, hdry, hs,
          if_true] at hixl
        rw [List.drop_left] at hixl
        exact List.eq_of_mem_replicate hixl
      · simp only [processBatch, hemp, Bool.false_eq_true, if_false, hdry, hs] at hixl
        rw [List.drop_left] at hixl
        exact List.eq_of_mem_replicate hixl

/-- Witness for C7: on the concrete network failing attempts one and two,
a one-account approved batch confirms with the third attempt signature
after delays of exactly 1000 ms and 2000 ms, and that account receives a
success record carrying the attempt-3 signature. -/
theorem C7_witness :
    (executeWithRetry c7Ctx.net 0
        = (⟨true, some "sig3", none⟩, 3, [1000, 2000])) ∧
    ((⟨"A", true, 6000000000, some "sig3", none⟩ : ReclaimResult)
        ∈ (processBatch c7Ctx 0 [c3Acct "A"] engineSt0).1.successful) := by
  have h := (C7_batch_retry c7Ctx 0 [c3Acct "A"] engineSt0 "boom1" "boom2"
    rfl rfl rfl).1 "sig3" rfl
  have hin : c3Acct "A" ∈ (buildPhase c7Ctx engineSt0.db 0
      engineSt0.budgetUsed [c3Acct "A"]).inTx := by decide
  exact ⟨h.1, h.2.2 (c3Acct "A") hin⟩

/-- Counterexample for C8: a TokenOwned account that is whitelisted is
short-circuited by the scanner pre-safety rules before any authority
comparison: although its decoded close authority equals the operator key,
the scanner leaves operatorCanClose = false, does not call
markAsReclaimable (the store is unchanged), and reports the whitelist skip
reason, contradicting the claim for every TokenOwned account. -/
theorem C8_authority_counterexample :
    decodedCloseAuthority c8Layout = "OP" ∧
    c8ScanCtx.operatorPubkey = some "OP" ∧
    c8Info.owner = tokenProgramId ∧
    (analyzeAccount c8ScanCtx c8DbW 0 "W" (some c8Info)).1.operatorCanClose = false ∧
    (analyzeAccount c8ScanCtx c8DbW 0 "W" (some c8Info)).1.skipReason
        = some "Account is whitelisted" ∧
    (analyzeAccount c8ScanCtx c8DbW 0 "W" (some c8Info)).2 = c8DbW := by
  refine ⟨rfl, rfl, rfl, ?_, ?_, ?_⟩ <;> decide

/-- Claim C8 as amended: for every TokenOwned account that passes the
scanner pre-safety rules (not whitelisted, not executable, lastChecked not
within the idle window) and whose layout decodes, the close authority is
the decoded close-authority field when its option flag is set and the
token owner field otherwise (never the operator); when it equals the
operator key the scanner sets operatorCanClose = true and marks the
account reclaimable before recording the authority, and on mismatch it
sets operatorCanClose = false and clears the reclaimable state before
recording the authority. -/
theorem C8_authority_classification_amended (ctx : ScanCtx) (db : Db)
    (now : Int) (pk : String) (i : AccountInfo) (layout : TokenAccountLayout)
    (op : String)
    (htok : i.owner = tokenProgramId)
    (hsafe : checkSafetyRules ctx db now pk i = none)
    (hdec : i.tokenLayout = some layout)
    (hop : ctx.operatorPubkey = some op) :
    ((analyzeAccount ctx db now pk (some i)).1.closeAuthority
        = some (decodedCloseAuthority layout)) ∧
    (decodedCloseAuthority layout
        = if layout.closeAuthorityOption == 1 then layout.closeAuthority
          else layout.owner) ∧
    (decodedCloseAuthority layout = op →
       (analyzeAccount ctx db now pk (some i)).1.operatorCanClose = true ∧
       (analyzeAccount ctx db now pk (some i)).1.isReclaimable = true ∧
       (analyzeAccount ctx db now pk (some i)).2
         = (db.markAsReclaimable pk now).updateAccountAuthority pk
             (some (decodedCloseAuthority layout)) true) ∧
    (decodedCloseAuthority layout ≠ op →
       (analyzeAccount ctx db now pk (some i)).1.operatorCanClose = false ∧
       (analyzeAccount ctx db now pk (some i)).1.skipReason
           = some "Operator is not close authority" ∧
       (analyzeAccount ctx db now pk (some i)).2
         = (db.clearReclaimableState pk).updateAccountAuthority pk
             (some (decodedCloseAuthority layout)) false) := by
  have hsys : (i.owner == systemProgramId) = false := by
    rw [htok]
    decide
  have htok2 : (i.owner == tokenProgramId) = true := by
    rw [htok]
    simp
  refine ⟨?_, rfl, ?_, ?_⟩
  · by_cases heq : decodedCloseAuthority layout = op
    · simp [analyzeAccount, hsafe, hsys, htok2, hdec, hop, heq]
    · have hne : (ctx.operatorPubkey == some (decodedCloseAuthority layout)) = false := by
        rw [hop]
        simpa using fun hcontra => heq hcontra.symm
      simp [analyzeAccount, hsafe, hsys, htok2, hdec, hne]
  · intro heq
    have hyes : (ctx.operatorPubkey == some (decodedCloseAuthority layout)) = true := by
      rw [hop, heq]
      simp
    refine ⟨?_, ?_, ?_⟩ <;>
      simp [analyzeAccount, hsafe, hsys, htok2, hdec, hyes]
  · intro heq
    have hne : (ctx.operatorPubkey == some (decodedCloseAuthority layout)) = false := by
      rw [hop]
      simpa using fun hcontra => heq hcontra.symm
    refine ⟨?_, ?_, ?_⟩ <;>
      simp [analyzeAccount, hsafe, hsys, htok2, hdec, hne]

/-- Witness for C8 (amended): a non-whitelisted, never-scanned token
account whose decoded authority is the operator is classified
operatorCanClose = true and the empty store passes through the
markAsReclaimable and updateAccountAuthority writes. -/
theorem C8_witness :
    ((analyzeAccount c8ScanCtx engineDb0 0 "T" (some c8Info)).1.operatorCanClose
        = true) ∧
    ((analyzeAccount c8ScanCtx engineDb0 0 "T" (some c8Info)).2
        = (engineDb0.markAsReclaimable "T" 0).updateAccountAuthority "T"
            (some (decodedCloseAuthority c8Layout)) true) := by
  have h := (C8_authority_classification_amended c8ScanCtx engineDb0 0 "T"
    c8Info c8Layout "OP" rfl (by decide) rfl rfl).2.2.1 (by decide)
  exact ⟨h.1, h.2.2⟩

/-- Claim C9: in dry-run mode processBatch leaves the store (accounts and
history), the submission transcript, the budget counter and the network
position untouched, while reporting one would-reclaim success record of
the usual shape per account that survived the build-and-validate path and
the usual failure records for the rest. -/
theorem C9_dry_run_frame (ctx : EngineCtx) (now : Int)
    (accounts : List AccountStatus) (st : RunState)
    (hdry : ctx.dryRun = true) :
    ((processBatch ctx now accounts st).2.db = st.db) ∧
    ((processBatch ctx now accounts st).2.db.history = st.db.history) ∧
    ((processBatch ctx now accounts st).2.submissions = st.submissions) ∧
    ((processBatch ctx now accounts st).2.budgetUsed = st.budgetUsed) ∧
    ((processBatch ctx now accounts st).2.attemptIdx = st.attemptIdx) ∧
    ((processBatch ctx now accounts st).1.successful
        = (buildPhase ctx st.db now st.budgetUsed accounts).inTx.map
            (fun a => ⟨a.pubkey, true, a.lamports, none, none⟩)) ∧
    ((processBatch ctx now accounts st).1.failed
        = (buildPhase ctx st.db now st.budgetUsed accounts).fails) := by
  by_cases hemp : (buildPhase ctx st.db now st.budgetUsed accounts).ixs.isEmpty
  · have hintx : (buildPhase ctx st.db now st.budgetUsed accounts).inTx = [] := by
      have hlen := buildPhase_inTx_length ctx st.db now st.budgetUsed accounts
      rw [List.isEmpty_iff.mp hemp] at hlen
      exact List.eq_nil_of_length_eq_zero hlen
    simp [processBatch, hemp, hintx]
  · simp [processBatch, hemp, hdry]

/-- Witness for C9: a dry run over one approved six SOL account changes
neither the store nor the submission transcript. -/
theorem C9_witness :
    ((processBatch c9Ctx 0 [c3Acct "A"] engineSt0).2.db = engineSt0.db) ∧
    ((processBatch c9Ctx 0 [c3Acct "A"] engineSt0).2.submissions
        = engineSt0.submissions) := by
  have h := C9_dry_run_frame c9Ctx 0 [c3Acct "A"] engineSt0 rfl
  exact ⟨h.1, h.2.2.1⟩

/-- Claim C10: reclaimSingle fabricates an account status with no token
flag, a null owner and zero lamports (and, in the source literal, no
operatorCanClose field, hence false); createCloseInstruction yields null
on it, and the current safety gate denies it outright on the authority
check, so the call never submits anything, writes nothing to the store,
and always returns a single failure record. -/
theorem C10_reclaimSingle_never_succeeds (ctx : EngineCtx) (now : Int)
    (pk : String) (st : RunState)
    (htre : (ctx.treasuryAddress == "") = false) :
    (createCloseInstruction ctx.chain (syntheticSingleStatus pk)
        ctx.operatorPubkey ctx.treasuryAddress = .ok none) ∧
    ∃ r st2, reclaimSingle ctx now pk st = .ok (r, st2) ∧
      r.success = false ∧ r.lamportsReclaimed = 0 ∧ r.txSignature = none ∧
      r.error = some "Operator is not the close authority" ∧
      st2.db = st.db ∧ st2.submissions = st.submissions := by
  have hbp : buildPhase ctx st.db now st.budgetUsed [syntheticSingleStatus pk]
      = ⟨[⟨pk, false, 0, none, some "Operator is not the close authority"⟩],
         [⟨pk, .skipped, 0, some "Operator is not the close authority", none⟩],
         [], []⟩ := rfl
  have hpb : processBatch ctx now [syntheticSingleStatus pk] st
      = (⟨[], [⟨pk, false, 0, none, some "Operator is not the close authority"⟩], 0⟩,
         { st with logs := st.logs
             ++ [⟨pk, .skipped, 0, some "Operator is not the close authority", none⟩] }) := by
    simp [processBatch, hbp]
  have hrun : runBatches ctx now [[syntheticSingleStatus pk]] st
      = (⟨[], [⟨pk, false, 0, none, some "Operator is not the close authority"⟩], 0⟩,
         { st with logs := st.logs
             ++ [⟨pk, .skipped, 0, some "Operator is not the close authority", none⟩] }) := by
    simp only [runBatches, hpb]
    by_cases hrem : getRemainingBudget ctx.safety st.budgetUsed ≤ 0
    · rw [if_pos hrem]
    · rw [if_neg hrem]
      rfl
  have hra : reclaimAccounts ctx now [syntheticSingleStatus pk] st
      = .ok (⟨[], [⟨pk, false, 0, none, some "Operator is not the close authority"⟩], 0⟩,
         { st with logs := st.logs
             ++ [⟨pk, .skipped, 0, some "Operator is not the close authority", none⟩] }) := by
    have hcb : createBatches [syntheticSingleStatus pk] MAX_INSTRUCTIONS
        = [[syntheticSingleStatus pk]] := rfl
    simp only [reclaimAccounts, List.isEmpty_cons, htre, Bool.false_eq_true,
      if_false, hcb, hrun]
  refine ⟨rfl, ⟨pk, false, 0, none, some "Operator is not the close authority"⟩,
    { st with logs := st.logs
        ++ [⟨pk, .skipped, 0, some "Operator is not the close authority", none⟩] },
    ?_, rfl, rfl, rfl, rfl, rfl, rfl⟩
  simp only [reclaimSingle, hra]

/-- Witness for C10: on a concretely configured engine the single-account
entry point returns a failure record and no success. -/
theorem C10_witness :
    ∃ r st2, reclaimSingle c3Ctx 0 "X" engineSt0 = .ok (r, st2) ∧
      r.success = false ∧
      r.error = some "Operator is not the close authority" := by
  obtain ⟨-, r, st2, hr, hsucc, -, -, herr, -, -⟩ :=
    C10_reclaimSingle_never_succeeds c3Ctx 0 "X" engineSt0 rfl
  exact ⟨r, st2, hr, hsucc, herr⟩
